import Mathlib

/-!
Verification development for the Cisco APIC ML2 driver core:
the managed-object naming scheme (`apic_client.ManagedObjectClass`),
the resilient session client (`apic_client.ApicSession`), and the
reconciliation engine (`apic_manager.APICManager`).

Each Python function relevant to the claims is shallowly embedded as an
executable Lean definition; network and database effects are made explicit
(environments passed as arguments, traces of remote operations returned).
-/

set_option maxRecDepth 4000

/-- Info about a Managed Object's relative name (RN) and container
(`ManagedObjectName` namedtuple in `apic_client.py`). -/
structure MoName where
  container : Option String
  rn_fmt : String
  can_create : Bool
deriving DecidableEq

/-- Helper mirroring the namedtuple default `can_create=True`. -/
def moName (c : Option String) (rn : String) : MoName :=
  ⟨c, rn, true⟩

/-- The `ManagedObjectClass.supported_mos` table, transcribed verbatim. -/
def supported_mos : List (String × MoName) := [
  ("fvTenant", moName none "tn-%s"),
  ("fvBD", moName (some "fvTenant") "BD-%s"),
  ("fvRsBd", moName (some "fvAEPg") "rsbd"),
  ("fvSubnet", moName (some "fvBD") "subnet-[%s]"),
  ("fvCtx", moName (some "fvTenant") "ctx-%s"),
  ("fvRsCtx", moName (some "fvBD") "rsctx"),
  ("fvAp", moName (some "fvTenant") "ap-%s"),
  ("fvAEPg", moName (some "fvAp") "epg-%s"),
  ("fvRsProv", moName (some "fvAEPg") "rsprov-%s"),
  ("fvRsCons", moName (some "fvAEPg") "rscons-%s"),
  ("fvRsConsIf", moName (some "fvAEPg") "rsconsif-%s"),
  ("fvRsDomAtt", moName (some "fvAEPg") "rsdomAtt-[%s]"),
  ("fvRsPathAtt", moName (some "fvAEPg") "rspathAtt-[%s]"),
  ("vzAny", moName (some "fvCtx") "any"),
  ("vzRsAnyToCons", moName (some "vzAny") "rsanyToCons-%s"),
  ("vzRsAnyToProv", moName (some "vzAny") "rsanyToProv-%s"),
  ("vzBrCP", moName (some "fvTenant") "brc-%s"),
  ("vzSubj", moName (some "vzBrCP") "subj-%s"),
  ("vzFilter", moName (some "fvTenant") "flt-%s"),
  ("vzRsFiltAtt", moName (some "vzSubj") "rsfiltAtt-%s"),
  ("vzEntry", moName (some "vzFilter") "e-%s"),
  ("vzInTerm", moName (some "vzSubj") "intmnl"),
  ("vzRsFiltAtt__In", moName (some "vzInTerm") "rsfiltAtt-%s"),
  ("vzOutTerm", moName (some "vzSubj") "outtmnl"),
  ("vzRsFiltAtt__Out", moName (some "vzOutTerm") "rsfiltAtt-%s"),
  ("vzRsSubjFiltAtt", moName (some "vzSubj") "rssubjFiltAtt-%s"),
  ("vzCPIf", moName (some "fvTenant") "cif-%s"),
  ("vzRsIf", moName (some "vzCPIf") "rsif"),
  ("l3extOut", moName (some "fvTenant") "out-%s"),
  ("l3extRsEctx", moName (some "l3extOut") "rsectx"),
  ("l3extLNodeP", moName (some "l3extOut") "lnodep-%s"),
  ("l3extRsNodeL3OutAtt", moName (some "l3extLNodeP") "rsnodeL3OutAtt-[%s]"),
  ("ipRouteP", moName (some "l3extRsNodeL3OutAtt") "rt-[%s]"),
  ("ipNexthopP", moName (some "ipRouteP") "nh-[%s]"),
  ("l3extLIfP", moName (some "l3extLNodeP") "lifp-%s"),
  ("l3extRsPathL3OutAtt", moName (some "l3extLIfP") "rspathL3OutAtt-[%s]"),
  ("l3extInstP", moName (some "l3extOut") "instP-%s"),
  ("fvRsCons__Ext", moName (some "l3extInstP") "rscons-%s"),
  ("fvRsProv__Ext", moName (some "l3extInstP") "rsprov-%s"),
  ("fvCollectionCont", moName (some "fvRsCons") "collectionDn-[%s]"),
  ("l3extSubnet", moName (some "l3extInstP") "extsubnet-[%s]"),
  ("vmmProvP", ⟨none, "vmmp-%s", false⟩),
  ("vmmDomP", moName (some "vmmProvP") "dom-%s"),
  ("vmmEpPD", moName (some "vmmDomP") "eppd-[%s]"),
  ("physDomP", moName none "phys-%s"),
  ("infra", moName none "infra"),
  ("infraNodeP", moName (some "infra") "nprof-%s"),
  ("infraLeafS", moName (some "infraNodeP") "leaves-%s-typ-%s"),
  ("infraNodeBlk", moName (some "infraLeafS") "nodeblk-%s"),
  ("infraRsAccPortP", moName (some "infraNodeP") "rsaccPortP-[%s]"),
  ("infraAccPortP", moName (some "infra") "accportprof-%s"),
  ("infraHPortS", moName (some "infraAccPortP") "hports-%s-typ-%s"),
  ("infraPortBlk", moName (some "infraHPortS") "portblk-%s"),
  ("infraRsAccBaseGrp", moName (some "infraHPortS") "rsaccBaseGrp"),
  ("infraFuncP", moName (some "infra") "funcprof"),
  ("infraAccPortGrp", moName (some "infraFuncP") "accportgrp-%s"),
  ("infraRsAttEntP", moName (some "infraAccPortGrp") "rsattEntP"),
  ("infraAttEntityP", moName (some "infra") "attentp-%s"),
  ("infraRsDomP", moName (some "infraAttEntityP") "rsdomP-[%s]"),
  ("infraRsVlanNs", moName (some "physDomP") "rsvlanNs"),
  ("fvnsVlanInstP", moName (some "infra") "vlanns-%s-%s"),
  ("fvnsEncapBlk__vlan", moName (some "fvnsVlanInstP") "from-%s-to-%s"),
  ("fvnsVxlanInstP", moName (some "infra") "vxlanns-%s"),
  ("fvnsEncapBlk__vxlan", moName (some "fvnsVxlanInstP") "from-%s-to-%s"),
  ("fabric", ⟨none, "fabric", false⟩),
  ("bgpInstPol", moName (some "fabric") "bgpInstP-%s"),
  ("bgpRRP", moName (some "bgpInstPol") "rr"),
  ("bgpRRNodePEp", moName (some "bgpRRP") "node-%s"),
  ("bgpAsP", moName (some "bgpInstPol") "as"),
  ("funcprof", ⟨some "fabric", "funcprof", false⟩),
  ("fabricPodPGrp", moName (some "funcprof") "podpgrp-%s"),
  ("fabricRsPodPGrpBGPRRP", moName (some "fabricPodPGrp") "rspodPGrpBGPRRP"),
  ("fabricPodP", moName (some "fabric") "podprof-default"),
  ("fabricPodS__ALL", moName (some "fabricPodP") "pods-%s-typ-ALL"),
  ("fabricRsPodPGrp", moName (some "fabricPodS__ALL") "rspodPGrp"),
  ("fabricTopology", ⟨none, "topology", false⟩),
  ("fabricPod", ⟨some "fabricTopology", "pod-%s", false⟩),
  ("fabricPathEpCont", ⟨some "fabricPod", "paths-%s", false⟩),
  ("fabricPathEp", ⟨some "fabricPathEpCont", "pathep-%s", false⟩),
  ("fabricNode", ⟨some "fabricPod", "node-%s", false⟩)]

/-- A token of a Python `%`-format string: either a literal character or a
`%s` value slot.  The table only ever uses `%s` slots. -/
inductive FmtTok where
  | lit (c : Char)
  | slot
deriving DecidableEq

/-- Left-to-right tokenization of a format string, treating each
non-overlapping occurrence of `%s` as a slot (this is how both Python's
`str.count('%s')` and the `%` operator scan the string). -/
def parseFmt : List Char → List FmtTok
  | [] => []
  | '%' :: 's' :: rest => .slot :: parseFmt rest
  | c :: rest => .lit c :: parseFmt rest

/-- Is the token a value slot? -/
def isSlotTok : FmtTok → Bool
  | .slot => true
  | .lit _ => false

/-- `fmt.count('%s')`: the number of value slots. -/
def countSlots (cs : List Char) : Nat :=
  (parseFmt cs).countP isSlotTok

/-- Positional substitution of values into a tokenized format string.
Returns `none` exactly when the arity does not match, mirroring Python's
`TypeError` for `%` with too few / too many arguments. -/
def substToks : List FmtTok → List String → Option (List Char)
  | [], [] => some []
  | [], _ :: _ => none
  | .slot :: ts, v :: vs => (substToks ts vs).map (fun t => v.data ++ t)
  | .slot :: _, [] => none
  | .lit c :: ts, vs => (substToks ts vs).map (fun t => c :: t)

/-- `fmt % values` for a tuple of strings. -/
def substFmt (fmt : String) (vs : List String) : Option String :=
  (substToks (parseFmt fmt.data) vs).map String.mk

/-- `ManagedObjectClass._dn_fmt`, with explicit recursion fuel standing in
for Python's call stack: the DN format of a class is `uni/` plus its own RN
format for a root class, and the container's DN format, `/`, and its own RN
format otherwise. -/
def dnFmtFuel : Nat → String → Option String
  | 0, _ => none
  | fuel + 1, klass =>
    match List.lookup klass supported_mos with
    | none => none
    | some mo =>
      match mo.container with
      | none => some ("uni/" ++ mo.rn_fmt)
      | some c => (dnFmtFuel fuel c).map (fun d => d ++ "/" ++ mo.rn_fmt)

/-- Fuel that is provably sufficient for every container chain in the
table (the deepest chain has length 6). -/
def moChainFuel : Nat := 16

/-- `self.dn_fmt` of a `ManagedObjectClass`. -/
def dn_fmt (k : String) : String :=
  (dnFmtFuel moChainFuel k).getD ""

/-- `self.param_count = self.dn_fmt.count('%s')`. -/
def param_count (k : String) : Nat :=
  countSlots (dn_fmt k).data

/-- `self.can_create = rn_has_param and mo.can_create`. -/
def mo_can_create (k : String) : Bool :=
  match List.lookup k supported_mos with
  | some mo => decide (0 < countSlots mo.rn_fmt.data) && mo.can_create
  | none => false

/-- `ManagedObjectClass.dn(*params)`: substitute the parameters into the
DN format (total wrapper used at call sites of known arity). -/
def mo_dn (k : String) (params : List String) : String :=
  (substFmt (dn_fmt k) params).getD ""

/-- `resolve`/`buildFullName` from the spec: derive the DN format of a
registered class and substitute a value list into it; `none` on an
unknown class or an arity mismatch. -/
def buildFullName (k : String) (vs : List String) : Option String :=
  (dnFmtFuel moChainFuel k).bind (fun f => substFmt f vs)

theorem substToks_isSome : ∀ (ts : List FmtTok) (vs : List String),
    (substToks ts vs).isSome = true ↔ ts.countP isSlotTok = vs.length := by
  intro ts
  induction ts with
  | nil =>
    intro vs
    cases vs <;> simp [substToks, List.countP_nil]
  | cons t ts ih =>
    intro vs
    cases t with
    | slot =>
      cases vs with
      | nil =>
        simp [substToks, List.countP_cons, isSlotTok]
      | cons v vs =>
        simp [substToks, List.countP_cons, isSlotTok, ih vs]
    | lit c =>
      simp [substToks, List.countP_cons, isSlotTok, ih vs]

theorem substFmt_isSome (fmt : String) (vs : List String) :
    (substFmt fmt vs).isSome = true ↔ countSlots fmt.data = vs.length := by
  simp [substFmt, countSlots, substToks_isSome]

/-- Decidable scan of the whole registry: every registered class has a
defined DN format at the chosen fuel, and the format satisfies the
root/child composition law of `_dn_fmt`. -/
theorem dn_table_check : supported_mos.all (fun e =>
    (dnFmtFuel moChainFuel e.1).isSome &&
    decide (dnFmtFuel moChainFuel e.1 =
      (match e.2.container with
       | none => some ("uni/" ++ e.2.rn_fmt)
       | some c => (dnFmtFuel moChainFuel c).map
           (fun d => d ++ "/" ++ e.2.rn_fmt)))) = true := by
  decide

/-- C9: for every registered object class the recursive DN derivation
terminates (the container chain is well-formed, so the fueled recursion
returns a value); root classes get the fixed prefix `uni/` plus their own
fragment and a child's template is its container's template plus `/` plus
its own fragment; and for every value list of the correct arity the full
name is defined and building it twice yields the identical string. -/
theorem C9_full_name_derivation :
    ∀ k mo, (k, mo) ∈ supported_mos →
      (dnFmtFuel moChainFuel k).isSome = true ∧
      dnFmtFuel moChainFuel k =
        (match mo.container with
         | none => some ("uni/" ++ mo.rn_fmt)
         | some c => (dnFmtFuel moChainFuel c).map
             (fun d => d ++ "/" ++ mo.rn_fmt)) ∧
      (∀ vs : List String, vs.length = param_count k →
        (buildFullName k vs).isSome = true ∧
        buildFullName k vs = buildFullName k vs) := by
  intro k mo hmem
  have h := List.all_eq_true.mp dn_table_check (k, mo) hmem
  rw [Bool.and_eq_true] at h
  obtain ⟨h1, h2⟩ := h
  refine ⟨h1, of_decide_eq_true h2, ?_⟩
  intro vs hlen
  obtain ⟨f, hf⟩ := Option.isSome_iff_exists.mp h1
  have hcount : param_count k = countSlots f.data := by
    simp [param_count, dn_fmt, hf]
  constructor
  · have : buildFullName k vs = substFmt f vs := by
      simp [buildFullName, hf]
    rw [this, substFmt_isSome, hcount.symm, hlen]
  · rfl

/-- Witness for C9 at the EPG class: membership and arity hypotheses are
discharged concretely. -/
theorem C9_full_name_derivation_witness :
    (buildFullName "fvAEPg" ["t", "a", "e"]).isSome = true :=
  ((C9_full_name_derivation "fvAEPg" (moName (some "fvAp") "epg-%s")
    (by decide)).2.2 ["t", "a", "e"] (by decide)).1

/-- Python `enumerate`, starting at a given index. -/
def enumFrom : Nat → List Int → List (Nat × Int)
  | _, [] => []
  | i, x :: xs => (i, x) :: enumFrom (i + 1) xs

/-- The grouping key `lambda (x, y): y - x` used by `group_by_ranges`. -/
def gkey (p : Nat × Int) : Int :=
  p.2 - (p.1 : Int)

/-- One step of the grouping: prepend an element to the chunking of the
rest, merging it into the first chunk when the keys agree. -/
def pyGroupbyStep (x : Nat × Int) : List (List (Nat × Int)) → List (List (Nat × Int))
  | [] => [[x]]
  | [] :: gs => [x] :: gs
  | (y :: g) :: gs =>
    if gkey x = gkey y then (x :: y :: g) :: gs else [x] :: (y :: g) :: gs

/-- `itertools.groupby` with the key above: chunk a list into maximal
blocks of consecutive elements sharing the same key. -/
def pyGroupby : List (Nat × Int) → List (List (Nat × Int))
  | [] => []
  | x :: xs => pyGroupbyStep x (pyGroupby xs)

/-- `yield b[0][1], b[-1][1]`: first and last value of a group. -/
def rangeOf (g : List (Nat × Int)) : Int × Int :=
  ((g.headD (0, 0)).2, (g.getLastD (0, 0)).2)

/-- `sorted(i)` over integers. -/
def sortInts (l : List Int) : List Int :=
  List.insertionSort (fun a b => a ≤ b) l

/-- `APICManager.group_by_ranges`: sort, enumerate, group by `y - x`, and
emit the first and last member of each group. -/
def group_by_ranges (l : List Int) : List (Int × Int) :=
  (pyGroupby (enumFrom 0 (sortInts l))).map rangeOf

/-- Modelled from the spec: walk a list emitting one `(first, last)` pair
per maximal contiguous run `(a, a+1, …, b)`; the accumulators hold the
first and the most recent member of the current run. -/
def runsGo : Int → Int → List Int → List (Int × Int)
  | first, last, [] => [(first, last)]
  | first, last, b :: rest =>
    if b = last + 1 then runsGo first b rest
    else (first, last) :: runsGo b b rest

/-- Modelled from the spec: the maximal contiguous runs of a list, as
`(first, last)` pairs. -/
def contiguousRuns : List Int → List (Int × Int)
  | [] => []
  | a :: xs => runsGo a a xs

/-- Replace the first component of the head pair. -/
def setFst (f : Int) : List (Int × Int) → List (Int × Int)
  | [] => []
  | p :: t => (f, p.2) :: t

theorem runsGo_setFst : ∀ (rest : List Int) (f g l : Int),
    runsGo f l rest = setFst f (runsGo g l rest) := by
  intro rest
  induction rest with
  | nil => intro f g l; simp [runsGo, setFst]
  | cons b r ih =>
    intro f g l
    by_cases hb : b = l + 1
    · simp only [runsGo, if_pos hb]
      exact ih f g b
    · simp [runsGo, if_neg hb, setFst]

theorem pyGroupby_head : ∀ (xs : List Int) (j : Nat) (x : Int),
    ∃ g gs, pyGroupby (enumFrom j (x :: xs)) = ((j, x) :: g) :: gs := by
  intro xs
  induction xs with
  | nil => intro j x; exact ⟨[], [], rfl⟩
  | cons y ys ih =>
    intro j x
    obtain ⟨g, gs, hg⟩ := ih (j + 1) y
    have he : pyGroupby (enumFrom j (x :: y :: ys)) =
        pyGroupbyStep (j, x) (pyGroupby (enumFrom (j + 1) (y :: ys))) := rfl
    by_cases hk : gkey (j, x) = gkey (j + 1, y)
    · refine ⟨(j + 1, y) :: g, gs, ?_⟩
      rw [he, hg]
      simp [pyGroupbyStep, hk]
    · refine ⟨[], ((j + 1, y) :: g) :: gs, ?_⟩
      rw [he, hg]
      simp [pyGroupbyStep, hk]

theorem pyGroupby_ranges_eq_runs : ∀ (l : List Int) (i : Nat),
    (pyGroupby (enumFrom i l)).map rangeOf = contiguousRuns l := by
  intro l
  induction l with
  | nil => intro i; simp [enumFrom, pyGroupby, contiguousRuns]
  | cons a tl ih =>
    intro i
    cases tl with
    | nil => simp [enumFrom, pyGroupby, pyGroupbyStep, contiguousRuns, runsGo, rangeOf]
    | cons b rest =>
      obtain ⟨g, gs, hg⟩ := pyGroupby_head rest (i + 1) b
      have hmap := ih (i + 1)
      rw [hg] at hmap
      have he : pyGroupby (enumFrom i (a :: b :: rest)) =
          pyGroupbyStep (i, a) (pyGroupby (enumFrom (i + 1) (b :: rest))) := rfl
      have hkey : (gkey (i, a) = gkey (i + 1, b)) ↔ b = a + 1 := by
        simp only [gkey]
        constructor <;> intro h <;> omega
      by_cases hb : b = a + 1
      · have hk : gkey (i, a) = gkey (i + 1, b) := hkey.mpr hb
        rw [he, hg]
        simp only [pyGroupbyStep, if_pos hk]
        simp only [contiguousRuns, runsGo, if_pos hb]
        rw [runsGo_setFst rest a b b]
        have hruns : runsGo b b rest = contiguousRuns (b :: rest) := rfl
        rw [hruns, ← hmap]
        simp [List.map_cons, rangeOf, setFst, List.getLastD_cons]
      · have hk : ¬ gkey (i, a) = gkey (i + 1, b) := fun h => hb (hkey.mp h)
        rw [he, hg]
        simp only [pyGroupbyStep, if_neg hk]
        simp only [contiguousRuns, runsGo, if_neg hb]
        have hruns : runsGo b b rest = contiguousRuns (b :: rest) := rfl
        rw [hruns, ← hmap]
        simp [List.map_cons, rangeOf]

/-- C5: `group_by_ranges` yields exactly one `(first, last)` pair per
maximal contiguous run of the sorted input, and on `[1,2,3,5,6,8]` it
yields `[(1,3),(5,6),(8,8)]`. -/
theorem C5_group_by_ranges :
    (∀ l : List Int,
      group_by_ranges l = contiguousRuns (sortInts l)) ∧
    group_by_ranges [1, 2, 3, 5, 6, 8] = [(1, 3), (5, 6), (8, 8)] := by
  constructor
  · intro l
    exact pyGroupby_ranges_eq_runs (sortInts l) 0
  · decide

/-- The range computation of the per-module port-block loop in
`ensure_infra_created_for_switch`: the source sorts the ports and then
sets `ranges = zip(ports, ports)` (the call to `group_by_ranges` on the
preceding line is commented out), i.e. one degenerate one-port range per
port. -/
def port_block_ranges (ports : List Int) : List (Int × Int) :=
  (sortInts ports).zip (sortInts ports)

/-- The creation loop over the ranges: for each range whose (from, to)
pair has no profile row in the local DB yet, create one remote port-block
object and add the DB row.  Returns the (fromPort, toPort) pairs for
which a block is created; the DB accumulates the added rows. -/
def createdPortBlocks : List (Int × Int) → List (Int × Int) → List (Int × Int)
  | [], _ => []
  | pr :: rest, db =>
    if pr ∈ db then createdPortBlocks rest db
    else pr :: createdPortBlocks rest (pr :: db)

theorem zip_self_eq_map (l : List Int) : l.zip l = l.map (fun p => (p, p)) := by
  induction l with
  | nil => rfl
  | cons a t ih => simp [List.zip_cons_cons, ih]

theorem createdPortBlocks_all_new : ∀ (l : List Int) (db : List (Int × Int)),
    l.Nodup → (∀ p ∈ l, (p, p) ∉ db) →
    createdPortBlocks (l.map (fun p => (p, p))) db = l.map (fun p => (p, p)) := by
  intro l
  induction l with
  | nil => intro db _ _; rfl
  | cons a t ih =>
    intro db hnd hdb
    have hna : (a, a) ∉ db := hdb a (List.mem_cons_self a t)
    simp only [List.map_cons, createdPortBlocks, if_neg hna]
    congr 1
    refine ih ((a, a) :: db) (List.Nodup.of_cons hnd) ?_
    intro p hp
    simp only [List.mem_cons]
    push_neg
    constructor
    · intro hcontra
      have : p = a := by
        have := congrArg Prod.fst hcontra
        simpa using this
      exact (List.nodup_cons.mp hnd).1 (this ▸ hp)
    · exact hdb p (List.mem_cons_of_mem a hp)

/-- C4 counterexample: for the two contiguous ports `[1, 2]` the code
creates two port-block objects (one per port), while the sorted input has
a single maximal contiguous run. -/
theorem C4_counterexample :
    (createdPortBlocks (port_block_ranges [1, 2]) []).length = 2 ∧
    (contiguousRuns (sortInts [1, 2])).length = 1 ∧
    (createdPortBlocks (port_block_ranges [1, 2]) []).length ≠
      (contiguousRuns (sortInts [1, 2])).length := by
  decide

/-- C4 (amended): with no pre-existing profile rows, the loop creates one
degenerate `(p, p)` port block per port — the number of blocks created
equals the number of ports, not the number of maximal contiguous runs. -/
theorem C4_one_block_per_port (ports : List Int) (h : ports.Nodup) :
    createdPortBlocks (port_block_ranges ports) [] =
      (sortInts ports).map (fun p => (p, p)) ∧
    (createdPortBlocks (port_block_ranges ports) []).length = ports.length := by
  have hperm : List.Perm (sortInts ports) ports := List.perm_insertionSort _ ports
  have hnd : (sortInts ports).Nodup := hperm.nodup_iff.mpr h
  have hmain : createdPortBlocks (port_block_ranges ports) [] =
      (sortInts ports).map (fun p => (p, p)) := by
    rw [port_block_ranges, zip_self_eq_map]
    exact createdPortBlocks_all_new (sortInts ports) [] hnd (by simp)
  refine ⟨hmain, ?_⟩
  rw [hmain, List.length_map, hperm.length_eq]

/-- Witness for the amended C4 at the concrete port list `[1, 2]`. -/
theorem C4_one_block_per_port_witness :
    createdPortBlocks (port_block_ranges [1, 2]) [] = [(1, 1), (2, 2)] ∧
    (createdPortBlocks (port_block_ranges [1, 2]) []).length = 2 := by
  have h := C4_one_block_per_port [1, 2] (by decide)
  exact ⟨by rw [h.1]; decide, h.2.trans (by decide)⟩

/-- An HTTP response as `_send` consumes it: status code, reason, and the
optional `imdata[0].error.attributes` `(code, text)` pair (`none` models a
body from which they cannot be extracted). -/
structure HttpResponse where
  status : Nat
  reason : String
  err_attrs : Option (String × String)
deriving DecidableEq

/-- The outcome of one transport-level request attempt: either one of the
`FALLBACK_EXCEPTIONS` (connect error, timeout, too-many-redirects,
invalid URL), carried as a message, or an HTTP response. -/
inductive ReqOutcome where
  | connErr (msg : String)
  | resp (r : HttpResponse)
deriving DecidableEq

/-- Did the attempt raise a connectivity-class exception? -/
def isConnErr : ReqOutcome → Bool
  | .connErr _ => true
  | .resp _ => false

/-- The message of a connectivity failure (dummy for a response). -/
def connMsg : ReqOutcome → String
  | .connErr m => m
  | .resp _ => ""

/-- `deque.rotate(-1)`: move the head of the ring to the back. -/
def rotate1 : List String → List String
  | [] => []
  | x :: xs => xs ++ [x]

/-- The loop of `ApicSession._do_request`: while fuel (initially the ring
size) remains, attempt the current head endpoint; a connectivity failure
rotates the ring and retries; when the loop is exhausted one final
unprotected attempt is made whose error, if any, propagates.  Returns the
list of attempted endpoints, the final ring, and the result. -/
def do_request_go (env : String → ReqOutcome) :
    Nat → List String → List String →
      List String × List String × Except String HttpResponse
  | 0, ring, trace =>
    (trace ++ [ring.headD ""], ring,
      match env (ring.headD "") with
      | .connErr e => .error e
      | .resp r => .ok r)
  | n + 1, ring, trace =>
    match env (ring.headD "") with
    | .resp r => (trace ++ [ring.headD ""], ring, .ok r)
    | .connErr _ => do_request_go env n (rotate1 ring) (trace ++ [ring.headD ""])

/-- `ApicSession._do_request` over a ring of endpoint base URLs. -/
def do_request (env : String → ReqOutcome) (ring : List String) :
    List String × List String × Except String HttpResponse :=
  do_request_go env ring.length ring []

theorem do_request_go_failover (env : String → ReqOutcome) :
    ∀ (fs : List String) (s : String) (rest trace : List String)
      (r : HttpResponse) (n : Nat),
      fs.length ≤ n → (∀ e ∈ fs, isConnErr (env e) = true) → env s = .resp r →
      do_request_go env n (fs ++ s :: rest) trace =
        (trace ++ fs ++ [s], s :: (rest ++ fs), .ok r) := by
  intro fs
  induction fs with
  | nil =>
    intro s rest trace r n _ _ hs
    cases n with
    | zero => simp [do_request_go, hs]
    | succ m => simp [do_request_go, hs]
  | cons f ft ih =>
    intro s rest trace r n hlen hconn hs
    cases n with
    | zero => simp at hlen
    | succ m =>
      have hf : isConnErr (env f) = true := hconn f (List.mem_cons_self f ft)
      cases henv : env f with
      | resp rr => rw [henv] at hf; simp [isConnErr] at hf
      | connErr msg =>
        have hstep : do_request_go env (m + 1) ((f :: ft) ++ s :: rest) trace =
            do_request_go env m (rotate1 ((f :: ft) ++ s :: rest)) (trace ++ [f]) := by
          simp [do_request_go, henv]
        rw [hstep]
        have hrot : rotate1 ((f :: ft) ++ s :: rest) = ft ++ s :: (rest ++ [f]) := by
          simp [rotate1]
        rw [hrot]
        have hm : ft.length ≤ m := by simpa using Nat.succ_le_succ_iff.mp (by simpa using hlen)
        have := ih s (rest ++ [f]) (trace ++ [f]) r m hm
          (fun e he => hconn e (List.mem_cons_of_mem f he)) hs
        rw [this]
        simp [List.append_assoc]

theorem do_request_go_allfail (env : String → ReqOutcome) :
    ∀ (n : Nat) (ring trace : List String),
      n ≤ ring.length → ring ≠ [] → (∀ e ∈ ring, isConnErr (env e) = true) →
      do_request_go env n ring trace =
        (trace ++ ring.take n ++ [((ring.drop n ++ ring.take n).headD "")],
         ring.drop n ++ ring.take n,
         .error (connMsg (env ((ring.drop n ++ ring.take n).headD "")))) := by
  intro n
  induction n with
  | zero =>
    intro ring trace _ hne hconn
    have hh : ring.headD "" ∈ ring := by
      cases ring with
      | nil => exact absurd rfl hne
      | cons x xs => simp
    have hc : isConnErr (env (ring.headD "")) = true := hconn _ hh
    cases henv : env (ring.headD "") with
    | resp rr => rw [henv] at hc; simp [isConnErr] at hc
    | connErr msg =>
      simp only [do_request_go, List.take_zero, List.drop_zero,
        List.append_nil, List.nil_append]
      rw [henv]
      simp [connMsg]
  | succ m ih =>
    intro ring trace hlen hne hconn
    cases ring with
    | nil => exact absurd rfl hne
    | cons x xs =>
      have hx : isConnErr (env x) = true := hconn x (List.mem_cons_self x xs)
      cases henv : env x with
      | resp rr => rw [henv] at hx; simp [isConnErr] at hx
      | connErr msg =>
        have hstep : do_request_go env (m + 1) (x :: xs) trace =
            do_request_go env m (xs ++ [x]) (trace ++ [x]) := by
          simp [do_request_go, henv, rotate1]
        rw [hstep]
        have hm : m ≤ (xs ++ [x]).length := by
          simp only [List.length_append, List.length_cons, List.length_singleton]
          simp only [List.length_cons] at hlen
          omega
        have hm2 : m ≤ xs.length := by
          simp only [List.length_cons] at hlen
          omega
        have hne2 : xs ++ [x] ≠ [] := by simp
        have hconn2 : ∀ e ∈ xs ++ [x], isConnErr (env e) = true := by
          intro e he
          rcases List.mem_append.mp he with h | h
          · exact hconn e (List.mem_cons_of_mem x h)
          · rw [List.mem_singleton.mp h]
            exact hx
        rw [ih (xs ++ [x]) (trace ++ [x]) hm hne2 hconn2]
        rw [List.take_append_of_le_length hm2, List.drop_append_of_le_length hm2]
        simp [List.append_assoc]

/-- C6: request execution over the endpoint ring.  (i) When a prefix of
endpoints raises connectivity errors and the next endpoint returns a
response, the request succeeds with that response, each failing endpoint
having been attempted exactly once, and the ring persists rotated so that
the succeeding endpoint is now first.  (ii) When every endpoint raises a
connectivity error, each endpoint is attempted once in ring order and one
final attempt is made at the endpoint back at the ring start; that final
attempt's error propagates.  (iii) A subsequent request on the rotated
ring starts at its new first endpoint. -/
theorem C6_endpoint_failover :
    (∀ (env : String → ReqOutcome) (fs rest : List String) (s : String)
       (r : HttpResponse),
      (∀ e ∈ fs, isConnErr (env e) = true) → env s = .resp r →
      do_request env (fs ++ s :: rest) =
        (fs ++ [s], s :: (rest ++ fs), .ok r)) ∧
    (∀ (env : String → ReqOutcome) (ring : List String),
      ring ≠ [] → (∀ e ∈ ring, isConnErr (env e) = true) →
      do_request env ring =
        (ring ++ [ring.headD ""], ring,
         .error (connMsg (env (ring.headD ""))))) ∧
    (∀ (env : String → ReqOutcome) (ring : List String) (r : HttpResponse),
      ring ≠ [] → env (ring.headD "") = .resp r →
      do_request env ring = ([ring.headD ""], ring, .ok r)) := by
  refine ⟨?_, ?_, ?_⟩
  · intro env fs rest s r hconn hs
    have hlen : fs.length ≤ (fs ++ s :: rest).length := by
      simp [List.length_append]
    have := do_request_go_failover env fs s rest [] r
      (fs ++ s :: rest).length hlen hconn hs
    simpa [do_request] using this
  · intro env ring hne hconn
    have := do_request_go_allfail env ring.length ring []
      (le_refl _) hne hconn
    simpa [do_request, List.take_length, List.drop_length] using this
  · intro env ring r hne hs
    cases ring with
    | nil => exact absurd rfl hne
    | cons x xs =>
      have hx : env x = .resp r := by simpa using hs
      have := do_request_go_failover env [] x xs [] r (x :: xs).length
        (by simp) (by simp) hx
      simpa [do_request] using this

/-- Witness for C6 with two endpoints: the first raises a connect error
and the second responds; an all-failing two-endpoint ring; and a request
on the rotated ring. -/
theorem C6_endpoint_failover_witness :
    do_request
        (fun e => if e == "h1" then .connErr "refused"
                  else .resp ⟨200, "OK", none⟩)
        ["h1", "h2"] =
      (["h1", "h2"], ["h2", "h1"], .ok ⟨200, "OK", none⟩) ∧
    do_request (fun _ => .connErr "down") ["h1", "h2"] =
      (["h1", "h2", "h1"], ["h1", "h2"], .error "down") ∧
    do_request
        (fun e => if e == "h1" then .connErr "refused"
                  else .resp ⟨200, "OK", none⟩)
        ["h2", "h1"] =
      (["h2"], ["h2", "h1"], .ok ⟨200, "OK", none⟩) := by
  refine ⟨?_, ?_, ?_⟩
  · have := C6_endpoint_failover.1
      (fun e => if e == "h1" then .connErr "refused"
                else .resp ⟨200, "OK", none⟩)
      ["h1"] [] "h2" ⟨200, "OK", none⟩ (by decide) (by decide)
    simpa using this
  · have := C6_endpoint_failover.2.1 (fun _ => .connErr "down")
      ["h1", "h2"] (by decide) (by decide)
    simpa using this
  · have := C6_endpoint_failover.2.2
      (fun e => if e == "h1" then .connErr "refused"
                else .resp ⟨200, "OK", none⟩)
      ["h2", "h1"] ⟨200, "OK", none⟩ (by decide) (by decide)
    simpa using this

/-- `requests.codes.ok`. -/
def codes_ok : Nat := 200

/-- `APIC_CODE_FORBIDDEN = str(requests.codes.forbidden)`. -/
def apic_code_forbidden : String := "403"

/-- Extract `imdata[0].error.attributes` code and text, with the fallback
strings used when the body lacks them (`IndexError`/`KeyError` branch). -/
def errFields (r : HttpResponse) : String × String :=
  match r.err_attrs with
  | some ct => ct
  | none => ("[code for APIC error not found]", "[text for APIC error not found]")

/-- ASCII lower-casing of a character code (`str.lower` restricted to the
ASCII range, which covers the vendor error texts compared here). -/
def asciiLower (n : Nat) : Nat :=
  if 65 ≤ n ∧ n ≤ 90 then n + 32 else n

/-- `text.lower().startswith(pattern)` for an already-lowercase pattern:
compare the lowered text prefix against the pattern character codes. -/
def startsWithLower : List Char → List Char → Bool
  | _, [] => true
  | [], _ :: _ => false
  | c :: cs, p :: ps => (asciiLower c.toNat == p.toNat) && startsWithLower cs ps

/-- The invalid-token test of `_send`:
`err_code == APIC_CODE_FORBIDDEN and err_text.lower().startswith('token was invalid')`. -/
def isTokenInvalid (r : HttpResponse) : Bool :=
  (errFields r).1 == apic_code_forbidden &&
    startsWithLower (errFields r).2.data "token was invalid".data

/-- The result of `_send` as observed by its caller. -/
inductive SendOutcome where
  | ok
  | notOk (status : Nat) (reason code text : String)
  | noResponse
  | raisedLogin (e : String)
deriving DecidableEq

/-- Environment of one `_send` call: the response delivered to the k-th
attempt of this request (`none` models `response is None`), the clock at
each receipt, and the behaviour of `login()` when the invalid-token retry
triggers it (`loginResult = some e` models `login` raising `e`;
`loginTimeoutSeconds` is the server timeout in the login reply, whose
cookie-save sets `session_timeout = timeout - 5` and a new deadline at
`loginTime`). -/
structure SendEnv where
  resp : Nat → Option HttpResponse
  now : Nat → Int
  loginResult : Option String
  loginTimeoutSeconds : Int
  loginTime : Int

/-- The `refreshed=True` leg of `_send`: process attempt `k` with no
further retry possible.  Returns the outcome and the deadline values
assigned (receipt time plus current session timeout — assigned before the
status is inspected). -/
def send_attempt_final (env : SendEnv) (timeout : Int) (k : Nat) :
    SendOutcome × List Int :=
  match env.resp k with
  | none => (.noResponse, [])
  | some r =>
    (if r.status = codes_ok then .ok
     else .notOk r.status r.reason (errFields r).1 (errFields r).2,
     [env.now k + timeout])

/-- `ApicSession._send`: deliver attempt 0; on a non-ok status whose body
indicates an invalid token (and no retry flag), perform one `login()` and
replay the request once; any other non-ok status — or a non-ok status on
the replay — yields `ApicResponseNotOk` carrying status, reason, error
code and error text.  Returns (outcome, deadline assignments in order,
login count, attempt count). -/
def send_model (env : SendEnv) (timeout : Int) :
    SendOutcome × List Int × Nat × Nat :=
  match env.resp 0 with
  | none => (.noResponse, [], 0, 1)
  | some r =>
    if r.status = codes_ok then (.ok, [env.now 0 + timeout], 0, 1)
    else if isTokenInvalid r then
      match env.loginResult with
      | some e => (.raisedLogin e, [env.now 0 + timeout], 1, 1)
      | none =>
        let t1 := env.loginTimeoutSeconds - 5
        let res := send_attempt_final env t1 1
        (res.1, (env.now 0 + timeout) :: (env.loginTime + t1) :: res.2, 1, 2)
    else
      (.notOk r.status r.reason (errFields r).1 (errFields r).2,
       [env.now 0 + timeout], 0, 1)

/-- C2: on a first-attempt non-ok response indicating an invalid token,
with no retry flag set and a succeeding re-login, `_send` performs
exactly one re-login and exactly one replay, and a non-ok replay response
(token-related or not) yields `ApicResponseNotOk` with that response's
status, reason, error code and error text; any other non-ok status fails
immediately with those fields and no login; and in every execution there
is at most one login and at most two attempts (no infinite retry loop). -/
theorem C2_token_retry :
    (∀ (env : SendEnv) (timeout : Int) (r : HttpResponse),
      env.resp 0 = some r → r.status ≠ codes_ok → isTokenInvalid r = true →
      env.loginResult = none →
      (send_model env timeout).2.2.1 = 1 ∧
      (send_model env timeout).2.2.2 = 2 ∧
      (∀ r1 : HttpResponse, env.resp 1 = some r1 → r1.status ≠ codes_ok →
        (send_model env timeout).1 =
          .notOk r1.status r1.reason (errFields r1).1 (errFields r1).2)) ∧
    (∀ (env : SendEnv) (timeout : Int) (r : HttpResponse),
      env.resp 0 = some r → r.status ≠ codes_ok → isTokenInvalid r = false →
      (send_model env timeout).1 =
        .notOk r.status r.reason (errFields r).1 (errFields r).2 ∧
      (send_model env timeout).2.2.1 = 0 ∧
      (send_model env timeout).2.2.2 = 1) ∧
    (∀ (env : SendEnv) (timeout : Int),
      (send_model env timeout).2.2.1 ≤ 1 ∧ (send_model env timeout).2.2.2 ≤ 2) := by
  refine ⟨?_, ?_, ?_⟩
  · intro env timeout r h0 hne htok hlog
    refine ⟨?_, ?_, ?_⟩
    · simp [send_model, h0, hne, htok, hlog]
    · simp [send_model, h0, hne, htok, hlog]
    · intro r1 h1 hne1
      simp [send_model, h0, hne, htok, hlog, send_attempt_final, h1, hne1]
  · intro env timeout r h0 hne htok
    refine ⟨?_, ?_, ?_⟩ <;> simp [send_model, h0, hne, htok]
  · intro env timeout
    unfold send_model
    cases henv : env.resp 0 with
    | none => simp
    | some r =>
      by_cases hok : r.status = codes_ok
      · simp [hok]
      · by_cases htok : isTokenInvalid r = true
        · cases hlog : env.loginResult with
          | some e => simp [hok, htok, hlog]
          | none => simp [hok, htok, hlog]
        · simp [hok, htok]

/-- Witness for C2: an invalid-token first response followed by an
unrelated rejection on the replay, and an unrelated first rejection. -/
theorem C2_token_retry_witness :
    (send_model
        ⟨fun k => if k = 0
            then some ⟨403, "Forbidden", some ("403", "Token was invalid: expired")⟩
            else some ⟨400, "Bad Request", some ("120", "Invalid RN")⟩,
          fun _ => 1000, none, 300, 1001⟩ 90).2.2.1 = 1 ∧
    (send_model
        ⟨fun k => if k = 0
            then some ⟨403, "Forbidden", some ("403", "Token was invalid: expired")⟩
            else some ⟨400, "Bad Request", some ("120", "Invalid RN")⟩,
          fun _ => 1000, none, 300, 1001⟩ 90).1 =
      .notOk 400 "Bad Request" "120" "Invalid RN" := by
  have h := C2_token_retry.1
    ⟨fun k => if k = 0
        then some ⟨403, "Forbidden", some ("403", "Token was invalid: expired")⟩
        else some ⟨400, "Bad Request", some ("120", "Invalid RN")⟩,
      fun _ => 1000, none, 300, 1001⟩ 90
    ⟨403, "Forbidden", some ("403", "Token was invalid: expired")⟩
    rfl (by decide) (by decide) rfl
  exact ⟨h.1, h.2.2 ⟨400, "Bad Request", some ("120", "Invalid RN")⟩ rfl (by decide)⟩

/-- C10: whenever `_send` receives an HTTP response to its first attempt,
the very first session-deadline assignment is the receipt time plus the
session timeout — it happens before the status is inspected, so a request
that ends in `ApicResponseNotOk` still extends the session lifetime. -/
theorem C10_deadline_extended :
    ∀ (env : SendEnv) (timeout : Int) (r : HttpResponse),
      env.resp 0 = some r →
      ((send_model env timeout).2.1).head? = some (env.now 0 + timeout) := by
  intro env timeout r h0
  unfold send_model
  rw [h0]
  by_cases hok : r.status = codes_ok
  · simp [hok]
  · by_cases htok : isTokenInvalid r = true
    · cases hlog : env.loginResult with
      | some e => simp [hok, htok, hlog]
      | none => simp [hok, htok, hlog]
    · simp [hok, htok]

/-- Witness for C10: a rejected request (non-ok, not token-related) still
gets its deadline set to receipt time plus timeout. -/
theorem C10_deadline_extended_witness :
    ((send_model
        ⟨fun _ => some ⟨400, "Bad Request", some ("120", "Invalid RN")⟩,
          fun _ => 1000, none, 300, 1001⟩ 90).2.1).head? = some 1090 := by
  have h := C10_deadline_extended
    ⟨fun _ => some ⟨400, "Bad Request", some ("120", "Invalid RN")⟩,
      fun _ => 1000, none, 300, 1001⟩ 90
    ⟨400, "Bad Request", some ("120", "Invalid RN")⟩ rfl
  simpa using h

deriving instance DecidableEq for Except

/-- The Python exceptions relevant to the reconciliation engine's
`except (cexc.ApicResponseNotOk, KeyError)` handlers: a remote rejection,
a missing dictionary key, and a `TypeError` (e.g. subscripting `None`),
which those handlers do not catch. -/
inductive PyErr where
  | apicNotOk (code text : String)
  | keyError (key : String)
  | typeError
deriving DecidableEq

/-- Is the exception caught by `except (cexc.ApicResponseNotOk, KeyError)`? -/
def isCaughtExc : PyErr → Bool
  | .apicNotOk _ _ => true
  | .keyError _ => true
  | .typeError => false

/-- The session state that `logout` reads and writes. -/
structure LogoutClient where
  username : Option String
  authentication : Option (List (String × String))
deriving DecidableEq

/-- `ApicSession.logout`: if no username is recorded, clear the
authentication; then, if still authenticated, post the `aaaLogout`
notification (whose outcome is the environment parameter `postResult`,
`some e` modelling a raised exception); finally clear the authentication
— a statement only reached when the post does not raise.  Returns the
propagated exception (if any) and the final client state. -/
def logout_model (st : LogoutClient) (postResult : Option PyErr) :
    Option PyErr × LogoutClient :=
  let st1 := if st.username = none then
      { st with authentication := none } else st
  if st1.authentication.isSome then
    match postResult with
    | some e => (some e, st1)
    | none => (none, { st1 with authentication := none })
  else (none, { st1 with authentication := none })

/-- C8 counterexample: a logged-in client whose `aaaLogout` post is
rejected by the server raises out of `logout()` with the local
authentication state still set — the claim that logout always leaves
`authentication = None` on return or raise is false. -/
theorem C8_counterexample :
    (logout_model ⟨some "admin", some [("token", "t")]⟩
        (some (.apicNotOk "400" "bad"))).2.authentication ≠ none ∧
    (logout_model ⟨some "admin", some [("token", "t")]⟩
        (some (.apicNotOk "400" "bad"))).1 = some (.apicNotOk "400" "bad") := by
  decide

/-- C8 (amended): `logout()` clears the local authentication state in
every execution in which it returns normally; but when the logout
notification raises (with a username recorded and authentication set),
the exception propagates before the final clearing assignment and the
client state — authentication included — is left unchanged. -/
theorem C8_logout_clears_auth :
    (∀ (st : LogoutClient) (post : Option PyErr),
      (logout_model st post).1 = none →
      (logout_model st post).2.authentication = none) ∧
    (∀ (st : LogoutClient) (e : PyErr),
      st.username ≠ none → st.authentication ≠ none →
      logout_model st (some e) = (some e, st)) := by
  constructor
  · intro st post hok
    unfold logout_model at hok ⊢
    by_cases hu : st.username = none
    · simp [hu] at hok ⊢
    · simp only [if_neg hu] at hok ⊢
      by_cases ha : st.authentication.isSome
      · cases post with
        | some e => simp [ha] at hok
        | none => simp [ha]
      · simp [ha]
  · intro st e hu ha
    unfold logout_model
    rw [if_neg hu]
    have ha2 : st.authentication.isSome = true := Option.isSome_iff_ne_none.mpr ha
    simp [ha2]

/-- Witness for the amended C8 at concrete states. -/
theorem C8_logout_clears_auth_witness :
    (logout_model ⟨some "admin", some [("token", "t")]⟩ none).2.authentication
      = none ∧
    logout_model ⟨some "admin", some [("token", "t")]⟩
        (some (.apicNotOk "400" "bad")) =
      (some (.apicNotOk "400" "bad"), ⟨some "admin", some [("token", "t")]⟩) := by
  constructor
  · exact C8_logout_clears_auth.1 ⟨some "admin", some [("token", "t")]⟩ none
      (by decide)
  · exact C8_logout_clears_auth.2 ⟨some "admin", some [("token", "t")]⟩
      (.apicNotOk "400" "bad") (by decide) (by decide)

/-- A remote operation performed by the Object Access Layer: a create/
update POST of an object body, a GET, or a delete (a POST carrying
`status='deleted'`), each addressed by the object's DN. -/
inductive ApicEvent where
  | create (dn : String)
  | get (dn : String)
  | del (dn : String)
deriving DecidableEq

/-- Remote-controller environment of a reconciliation run: whether a POST
of a given DN is rejected (`some e` models the raised exception), and the
attribute dictionary a GET of a given DN returns (`none` is "not
found"). -/
structure ApicEnv where
  postFails : String → Option PyErr
  getResult : String → Option (List (String × String))

/-- `ManagedObjectAccess._create_container`: the DNs posted for the
creatable ancestors of a class, container-first, each ancestor taking the
leading `param_count` parameters of its chain. -/
def create_container_dns : Nat → String → List String → List String
  | 0, _, _ => []
  | fuel + 1, k, params =>
    match List.lookup k supported_mos with
    | none => []
    | some mo =>
      match mo.container with
      | none => []
      | some c =>
        if mo_can_create c then
          create_container_dns fuel c (params.take (param_count c)) ++
            [mo_dn c (params.take (param_count c))]
        else []

/-- `ManagedObjectAccess.create`: the ancestor-chain posts followed by the
post of the object itself. -/
def mo_create_dns (k : String) (params : List String) : List String :=
  create_container_dns moChainFuel k params ++ [mo_dn k params]

/-- Execute a sequence of POSTs against the environment, accumulating the
successful ones in the trace and stopping at the first rejected one. -/
def runPosts (env : ApicEnv) : List String → List ApicEvent →
    List ApicEvent × Option PyErr
  | [], tr => (tr, none)
  | d :: ds, tr =>
    match env.postFails d with
    | some e => (tr, some e)
    | none => runPosts env ds (tr ++ [.create d])

/-- The delete events of a trace, in order. -/
def delsOf (tr : List ApicEvent) : List String :=
  tr.filterMap (fun e => match e with | .del d => some d | _ => none)

theorem runPosts_all_ok (env : ApicEnv) : ∀ (ds : List String) (tr : List ApicEvent),
    (∀ d ∈ ds, env.postFails d = none) →
    runPosts env ds tr = (tr ++ ds.map .create, none) := by
  intro ds
  induction ds with
  | nil => intro tr _; simp [runPosts]
  | cons d dt ih =>
    intro tr h
    have hd : env.postFails d = none := h d (List.mem_cons_self d dt)
    simp only [runPosts, hd]
    rw [ih (tr ++ [ApicEvent.create d]) (fun x hx => h x (List.mem_cons_of_mem d hx))]
    simp

theorem runPosts_fail_last (env : ApicEnv) (d : String) (e : PyErr)
    (hfail : env.postFails d = some e) :
    ∀ (ds : List String) (tr : List ApicEvent),
      (∀ x ∈ ds, env.postFails x = none) →
      runPosts env (ds ++ [d]) tr = (tr ++ ds.map .create, some e) := by
  intro ds
  induction ds with
  | nil => intro tr _; simp [runPosts, hfail]
  | cons x xt ih =>
    intro tr hok
    have hx : env.postFails x = none := hok x (List.mem_cons_self x xt)
    simp only [List.cons_append, runPosts, hx, List.append_eq]
    rw [ih (tr ++ [ApicEvent.create x]) (fun y hy => hok y (List.mem_cons_of_mem x hy))]
    simp

theorem delsOf_append (t1 t2 : List ApicEvent) :
    delsOf (t1 ++ t2) = delsOf t1 ++ delsOf t2 := by
  simp [delsOf, List.filterMap_append]

theorem delsOf_map_create (ds : List String) :
    delsOf (ds.map .create) = [] := by
  induction ds with
  | nil => rfl
  | cons d dt ih => simp [delsOf, List.filterMap_cons]

theorem lookup_append_of_none {β : Type} (k : String) (l1 l2 : List (String × β))
    (h : List.lookup k l1 = none) :
    List.lookup k (l1 ++ l2) = List.lookup k l2 := by
  induction l1 with
  | nil => simp
  | cons p t ih =>
    obtain ⟨a, b⟩ := p
    by_cases hk : (k == a) = true
    · simp [List.lookup, hk] at h
    · rw [Bool.not_eq_true] at hk
      simp only [List.lookup, hk] at h
      simp only [List.cons_append, List.lookup, hk]
      exact ih h

/-- The body of the `try` block of
`APICManager.ensure_epg_created_for_network`: create the EPG (ancestors
first), GET the bridge domain of the network and read its `name`
attribute (a missing object is a `TypeError` — `None['name']` — and a
missing key a `KeyError`), create the `fvRsBd` association, read the
physical domain's `dn`, and create the `fvRsDomAtt` attachment.  Returns
the trace of successful remote operations and the exception raised, if
any. -/
def epg_body (env : ApicEnv) (tenant app epg_uid network : String)
    (phys_domain : Option (List (String × String))) :
    List ApicEvent × Option PyErr :=
  match runPosts env (mo_create_dns "fvAEPg" [tenant, app, epg_uid]) [] with
  | (tr1, some e) => (tr1, some e)
  | (tr1, none) =>
    match env.getResult (mo_dn "fvBD" [tenant, network]) with
    | none => (tr1 ++ [.get (mo_dn "fvBD" [tenant, network])], some .typeError)
    | some battrs =>
      match List.lookup "name" battrs with
      | none => (tr1 ++ [.get (mo_dn "fvBD" [tenant, network])],
                 some (.keyError "name"))
      | some _bd_name =>
        match runPosts env (mo_create_dns "fvRsBd" [tenant, app, epg_uid])
            (tr1 ++ [.get (mo_dn "fvBD" [tenant, network])]) with
        | (tr3, some e) => (tr3, some e)
        | (tr3, none) =>
          match phys_domain with
          | none => (tr3, some .typeError)
          | some pattrs =>
            match List.lookup "dn" pattrs with
            | none => (tr3, some (.keyError "dn"))
            | some phys_dn =>
              runPosts env
                (mo_create_dns "fvRsDomAtt" [tenant, app, epg_uid, phys_dn]) tr3

/-- `APICManager.ensure_epg_created_for_network`: if the local DB has an
EPG row for the network, return it (no remote operation at all);
otherwise run the creation sequence with `epg_uid = network_id`; on a
caught exception (`ApicResponseNotOk` or `KeyError`) delete the EPG and
re-raise, leaving the DB unwritten; on success persist
`network_id → epg_uid` and return the row.  Returns (result, DB, trace).
-/
def ensure_epg_created_for_network (env : ApicEnv) (db : List (String × String))
    (tenant app network : String)
    (phys_domain : Option (List (String × String))) :
    Except PyErr (String × String) × List (String × String) × List ApicEvent :=
  match List.lookup network db with
  | some epg_id => (.ok (network, epg_id), db, [])
  | none =>
    match epg_body env tenant app network network phys_domain with
    | (tr, none) => (.ok (network, network), db ++ [(network, network)], tr)
    | (tr, some e) =>
      if isCaughtExc e then
        (.error e, db,
         tr ++ [.del (mo_dn "fvAEPg" [tenant, app, network])])
      else (.error e, db, tr)

theorem epg_body_success (env : ApicEnv)
    (tenant app network bd_name phys_dn : String)
    (battrs pattrs : List (String × String))
    (hpost : ∀ d, env.postFails d = none)
    (hbd : env.getResult (mo_dn "fvBD" [tenant, network]) = some battrs)
    (hname : List.lookup "name" battrs = some bd_name)
    (hdn : List.lookup "dn" pattrs = some phys_dn) :
    epg_body env tenant app network network (some pattrs) =
      ((mo_create_dns "fvAEPg" [tenant, app, network]).map .create ++
        ([.get (mo_dn "fvBD" [tenant, network])] ++
         ((mo_create_dns "fvRsBd" [tenant, app, network]).map .create ++
          (mo_create_dns "fvRsDomAtt" [tenant, app, network, phys_dn]).map
            .create)),
       none) := by
  unfold epg_body
  rw [runPosts_all_ok env (mo_create_dns "fvAEPg" [tenant, app, network]) []
    (fun d _ => hpost d)]
  dsimp only
  rw [hbd]
  dsimp only
  rw [hname]
  dsimp only
  rw [runPosts_all_ok env (mo_create_dns "fvRsBd" [tenant, app, network]) _
    (fun d _ => hpost d)]
  dsimp only
  rw [hdn]
  dsimp only
  rw [runPosts_all_ok env
    (mo_create_dns "fvRsDomAtt" [tenant, app, network, phys_dn]) _
    (fun d _ => hpost d)]
  simp [List.append_assoc]

/-- C1: with no prior local record and a non-interfering remote (every
POST accepted, the network's bridge domain present with a `name`, the
physical domain configured with a `dn`), the first
`ensure_epg_created_for_network` call performs the remote create sequence
(the EPG create among it, no deletes), returns the handle
`(network, network)` and persists `network → network` in the local DB;
the second call with identical arguments finds the record, performs zero
remote operations, and returns the same handle. -/
theorem C1_ensure_epg_idempotent :
    ∀ (env : ApicEnv) (db : List (String × String))
      (tenant app network bd_name phys_dn : String)
      (battrs pattrs : List (String × String)),
      List.lookup network db = none →
      (∀ d, env.postFails d = none) →
      env.getResult (mo_dn "fvBD" [tenant, network]) = some battrs →
      List.lookup "name" battrs = some bd_name →
      List.lookup "dn" pattrs = some phys_dn →
      (ensure_epg_created_for_network env db tenant app network
          (some pattrs)).1 = .ok (network, network) ∧
      (ensure_epg_created_for_network env db tenant app network
          (some pattrs)).2.1 = db ++ [(network, network)] ∧
      List.lookup network
        (ensure_epg_created_for_network env db tenant app network
          (some pattrs)).2.1 = some network ∧
      delsOf (ensure_epg_created_for_network env db tenant app network
          (some pattrs)).2.2 = [] ∧
      ApicEvent.create (mo_dn "fvAEPg" [tenant, app, network]) ∈
        (ensure_epg_created_for_network env db tenant app network
          (some pattrs)).2.2 ∧
      ensure_epg_created_for_network env
          (ensure_epg_created_for_network env db tenant app network
            (some pattrs)).2.1
          tenant app network (some pattrs) =
        (.ok (network, network),
         (ensure_epg_created_for_network env db tenant app network
           (some pattrs)).2.1,
         []) := by
  intro env db tenant app network bd_name phys_dn battrs pattrs
    h0 hpost hbd hname hdn
  have hbody := epg_body_success env tenant app network bd_name phys_dn
    battrs pattrs hpost hbd hname hdn
  have hfirst : ensure_epg_created_for_network env db tenant app network
      (some pattrs) =
      (.ok (network, network), db ++ [(network, network)],
       (mo_create_dns "fvAEPg" [tenant, app, network]).map .create ++
        ([.get (mo_dn "fvBD" [tenant, network])] ++
         ((mo_create_dns "fvRsBd" [tenant, app, network]).map .create ++
          (mo_create_dns "fvRsDomAtt" [tenant, app, network, phys_dn]).map
            .create))) := by
    unfold ensure_epg_created_for_network
    rw [h0]
    dsimp only
    rw [hbody]
  have hlook2 : List.lookup network (db ++ [(network, network)]) =
      some network := by
    rw [lookup_append_of_none network db _ h0]
    simp [List.lookup]
  refine ⟨by rw [hfirst], by rw [hfirst], ?_, ?_, ?_, ?_⟩
  · rw [hfirst]
    exact hlook2
  · rw [hfirst]
    simp only [delsOf_append, delsOf_map_create]
    simp [delsOf]
  · rw [hfirst]
    dsimp only
    refine List.mem_append_left _ ?_
    refine List.mem_map_of_mem _ ?_
    unfold mo_create_dns
    exact List.mem_append_right _ (List.mem_singleton_self _)
  · rw [hfirst]
    dsimp only
    unfold ensure_epg_created_for_network
    rw [hlook2]

/-- Witness for C1: network `net-42` under tenant `tenantA`, empty local
DB, a remote that accepts every POST and holds the bridge domain. -/
theorem C1_ensure_epg_idempotent_witness :
    (ensure_epg_created_for_network
        ⟨fun _ => none,
         fun d => if d == mo_dn "fvBD" ["tenantA", "net-42"]
                  then some [("name", "net-42")] else none⟩
        [] "tenantA" "openstack" "net-42"
        (some [("dn", "uni/phys-openstack")])).1 = .ok ("net-42", "net-42") ∧
    (ensure_epg_created_for_network
        ⟨fun _ => none,
         fun d => if d == mo_dn "fvBD" ["tenantA", "net-42"]
                  then some [("name", "net-42")] else none⟩
        [] "tenantA" "openstack" "net-42"
        (some [("dn", "uni/phys-openstack")])).2.1 =
      [("net-42", "net-42")] := by
  have h := C1_ensure_epg_idempotent
    ⟨fun _ => none,
     fun d => if d == mo_dn "fvBD" ["tenantA", "net-42"]
              then some [("name", "net-42")] else none⟩
    [] "tenantA" "openstack" "net-42" "net-42" "uni/phys-openstack"
    [("name", "net-42")] [("dn", "uni/phys-openstack")]
    rfl (fun _ => rfl) (by simp) rfl rfl
  exact ⟨h.1, h.2.1⟩

/-- C3 counterexample: network `net-42` has a local EPG record but the
remote controller holds no objects at all (out-of-band deletion:
every GET returns not-found).  `ensure_epg_created_for_network` returns
the stale handle with an empty trace — no remote existence check, no
clearing of the record, no re-creation. -/
theorem C3_counterexample :
    ensure_epg_created_for_network ⟨fun _ => none, fun _ => none⟩
        [("net-42", "net-42")] "tenantA" "openstack" "net-42" none =
      (.ok ("net-42", "net-42"), [("net-42", "net-42")], []) := rfl

/-- `APICManager._create_if_not_exist`: GET the object's DN and create it
(ancestors first) only when the GET finds nothing. -/
def createIfNotExist (env : ApicEnv) (k : String) (params : List String)
    (tr : List ApicEvent) : List ApicEvent × Option PyErr :=
  match env.getResult (mo_dn k params) with
  | some _ => (tr ++ [.get (mo_dn k params)], none)
  | none => runPosts env (mo_create_dns k params)
      (tr ++ [.get (mo_dn k params)])

/-- `APICManager.create_tenant_filter`: ensure the tenant filter and its
generic entry exist; on a caught failure delete the filter and
re-raise. -/
def create_tenant_filter (env : ApicEnv) (tenant fuuid euuid : String)
    (tr : List ApicEvent) : List ApicEvent × Option PyErr :=
  match createIfNotExist env "vzFilter" [tenant, fuuid] tr with
  | (t1, some e) =>
    if isCaughtExc e then
      (t1 ++ [.del (mo_dn "vzFilter" [tenant, fuuid])], some e)
    else (t1, some e)
  | (t1, none) =>
    match createIfNotExist env "vzEntry" [tenant, fuuid, euuid] t1 with
    | (t2, some e) =>
      if isCaughtExc e then
        (t2 ++ [.del (mo_dn "vzFilter" [tenant, fuuid])], some e)
      else (t2, some e)
    | (t2, none) => (t2, none)

/-- A row of the router-contract table: tenant, router, contract and
filter identifiers. -/
structure ContractRow where
  tenant_id : String
  router_id : String
  contract_id : String
  filter_id : String
deriving DecidableEq

/-- The `try` body of `APICManager.get_router_contract`: ensure the
contract, its subject, the tenant filter with entry, the
subject-to-filter attachment and the contract interface exist
(create-if-not-exist each), then unconditionally create the `vzRsIf`
relation.  Attribute payloads (e.g. the contract scope) are carried by
the POST bodies and are not part of the DN-addressed trace. -/
def contract_body (env : ApicEnv)
    (owner cuuid suuid iuuid fuuid euuid : String) :
    List ApicEvent × Option PyErr :=
  match createIfNotExist env "vzBrCP" [owner, cuuid] [] with
  | (t1, some e) => (t1, some e)
  | (t1, none) =>
    match createIfNotExist env "vzSubj" [owner, cuuid, suuid] t1 with
    | (t2, some e) => (t2, some e)
    | (t2, none) =>
      match create_tenant_filter env owner fuuid euuid t2 with
      | (t3, some e) => (t3, some e)
      | (t3, none) =>
        match createIfNotExist env "vzRsSubjFiltAtt"
            [owner, cuuid, suuid, fuuid] t3 with
        | (t4, some e) => (t4, some e)
        | (t4, none) =>
          match createIfNotExist env "vzCPIf" [owner, iuuid] t4 with
          | (t5, some e) => (t5, some e)
          | (t5, none) =>
            runPosts env (mo_create_dns "vzRsIf" [owner, iuuid]) t5

/-- `APICManager.get_router_contract`: look up the contract row recorded
for the router; reuse its contract id when present, else use a freshly
generated one; run the creation body; on success write the row only when
it did not exist; on a caught failure delete the contract and re-raise.
Returns (result, DB, trace). -/
def get_router_contract (env : ApicEnv) (db : List ContractRow)
    (router owner fresh suuid iuuid fuuid euuid : String) :
    Except PyErr ContractRow × List ContractRow × List ApicEvent :=
  match db.find? (fun r => r.router_id == router) with
  | some c =>
    match contract_body env owner c.contract_id suuid iuuid fuuid euuid with
    | (tr, none) => (.ok c, db, tr)
    | (tr, some e) =>
      if isCaughtExc e then
        (.error e, db, tr ++ [.del (mo_dn "vzBrCP" [owner, c.contract_id])])
      else (.error e, db, tr)
  | none =>
    match contract_body env owner fresh suuid iuuid fuuid euuid with
    | (tr, none) =>
      (.ok ⟨owner, router, fresh, fuuid⟩, db ++ [⟨owner, router, fresh, fuuid⟩],
       tr)
    | (tr, some e) =>
      if isCaughtExc e then
        (.error e, db, tr ++ [.del (mo_dn "vzBrCP" [owner, fresh])])
      else (.error e, db, tr)

theorem createIfNotExist_absent (env : ApicEnv) (k : String)
    (params : List String) (tr : List ApicEvent)
    (hget : env.getResult (mo_dn k params) = none)
    (hpost : ∀ d, env.postFails d = none) :
    createIfNotExist env k params tr =
      (tr ++ ([.get (mo_dn k params)] ++ (mo_create_dns k params).map .create),
       none) := by
  unfold createIfNotExist
  rw [hget]
  dsimp only
  rw [runPosts_all_ok env _ _ (fun d _ => hpost d)]
  simp [List.append_assoc]

theorem contract_body_wiped (env : ApicEnv)
    (owner cuuid suuid iuuid fuuid euuid : String)
    (hget : ∀ d, env.getResult d = none)
    (hpost : ∀ d, env.postFails d = none) :
    ∃ tr, contract_body env owner cuuid suuid iuuid fuuid euuid = (tr, none) ∧
      ApicEvent.create (mo_dn "vzBrCP" [owner, cuuid]) ∈ tr := by
  unfold contract_body create_tenant_filter
  rw [createIfNotExist_absent env "vzBrCP" [owner, cuuid] [] (hget _) hpost]
  dsimp only
  rw [createIfNotExist_absent env "vzSubj" [owner, cuuid, suuid] _ (hget _) hpost]
  dsimp only
  rw [createIfNotExist_absent env "vzFilter" [owner, fuuid] _ (hget _) hpost]
  dsimp only
  rw [createIfNotExist_absent env "vzEntry" [owner, fuuid, euuid] _ (hget _) hpost]
  dsimp only
  rw [createIfNotExist_absent env "vzRsSubjFiltAtt" [owner, cuuid, suuid, fuuid]
    _ (hget _) hpost]
  dsimp only
  rw [createIfNotExist_absent env "vzCPIf" [owner, iuuid] _ (hget _) hpost]
  dsimp only
  rw [runPosts_all_ok env (mo_create_dns "vzRsIf" [owner, iuuid]) _
    (fun d _ => hpost d)]
  refine ⟨_, rfl, ?_⟩
  have hd : ApicEvent.create (mo_dn "vzBrCP" [owner, cuuid]) ∈
      (mo_create_dns "vzBrCP" [owner, cuuid]).map ApicEvent.create := by
    refine List.mem_map_of_mem _ ?_
    unfold mo_create_dns
    exact List.mem_append_right _ (List.mem_singleton_self _)
  simp only [List.mem_append]
  tauto

/-- C3 (amended): the two ensure-style operations behave differently on a
stale local record, and neither matches the claim in full.
`ensure_epg_created_for_network` trusts the local record without any
remote verification: it returns the recorded handle with zero remote
operations, never clearing the record or recreating the object.
`get_router_contract` re-checks remote existence of each sub-object via
create-if-not-exist and recreates missing remote objects reusing the
recorded contract identifier, without clearing the local record; neither
operation raises a not-found error. -/
theorem C3_stale_record_behaviour :
    (∀ (env : ApicEnv) (db : List (String × String))
       (tenant app network epg_id : String)
       (phys : Option (List (String × String))),
      List.lookup network db = some epg_id →
      ensure_epg_created_for_network env db tenant app network phys =
        (.ok (network, epg_id), db, [])) ∧
    (∀ (env : ApicEnv) (db : List ContractRow) (c : ContractRow)
       (router owner fresh suuid iuuid fuuid euuid : String),
      db.find? (fun r => r.router_id == router) = some c →
      (∀ d, env.getResult d = none) →
      (∀ d, env.postFails d = none) →
      (get_router_contract env db router owner fresh suuid iuuid fuuid
          euuid).1 = .ok c ∧
      (get_router_contract env db router owner fresh suuid iuuid fuuid
          euuid).2.1 = db ∧
      ApicEvent.create (mo_dn "vzBrCP" [owner, c.contract_id]) ∈
        (get_router_contract env db router owner fresh suuid iuuid fuuid
          euuid).2.2) := by
  constructor
  · intro env db tenant app network epg_id phys hrec
    unfold ensure_epg_created_for_network
    rw [hrec]
  · intro env db c router owner fresh suuid iuuid fuuid euuid hfind hget hpost
    obtain ⟨tr, htr, hmem⟩ := contract_body_wiped env owner c.contract_id
      suuid iuuid fuuid euuid hget hpost
    have hrun : get_router_contract env db router owner fresh suuid iuuid
        fuuid euuid = (.ok c, db, tr) := by
      unfold get_router_contract
      rw [hfind]
      dsimp only
      rw [htr]
    rw [hrun]
    exact ⟨rfl, rfl, hmem⟩

/-- Witness for the amended C3 at a concrete stale record and a wiped
remote. -/
theorem C3_stale_record_behaviour_witness :
    ensure_epg_created_for_network ⟨fun _ => none, fun _ => none⟩
        [("net-7", "net-7")] "t" "ap" "net-7" none =
      (.ok ("net-7", "net-7"), [("net-7", "net-7")], []) ∧
    (get_router_contract ⟨fun _ => none, fun _ => none⟩
        [⟨"common", "r1", "c-1", "os-filter"⟩] "r1" "common" "fresh-id"
        "os-subject" "os-interface" "os-filter" "os-entry").1 =
      .ok ⟨"common", "r1", "c-1", "os-filter"⟩ := by
  constructor
  · exact C3_stale_record_behaviour.1 ⟨fun _ => none, fun _ => none⟩
      [("net-7", "net-7")] "t" "ap" "net-7" "net-7" none rfl
  · exact (C3_stale_record_behaviour.2 ⟨fun _ => none, fun _ => none⟩
      [⟨"common", "r1", "c-1", "os-filter"⟩] ⟨"common", "r1", "c-1", "os-filter"⟩
      "r1" "common" "fresh-id" "os-subject" "os-interface" "os-filter"
      "os-entry" rfl (fun _ => rfl) (fun _ => rfl)).1

theorem epg_body_fail_domatt (env : ApicEnv)
    (tenant app network bd_name phys_dn : String)
    (battrs pattrs : List (String × String)) (e : PyErr)
    (h1 : ∀ d ∈ mo_create_dns "fvAEPg" [tenant, app, network],
      env.postFails d = none)
    (hbd : env.getResult (mo_dn "fvBD" [tenant, network]) = some battrs)
    (hname : List.lookup "name" battrs = some bd_name)
    (hdn : List.lookup "dn" pattrs = some phys_dn)
    (h3 : ∀ d ∈ mo_create_dns "fvRsBd" [tenant, app, network],
      env.postFails d = none)
    (h4 : ∀ d ∈ create_container_dns moChainFuel "fvRsDomAtt"
        [tenant, app, network, phys_dn], env.postFails d = none)
    (hfail : env.postFails (mo_dn "fvRsDomAtt" [tenant, app, network, phys_dn])
      = some e) :
    epg_body env tenant app network network (some pattrs) =
      ((mo_create_dns "fvAEPg" [tenant, app, network]).map .create ++
        ([.get (mo_dn "fvBD" [tenant, network])] ++
         ((mo_create_dns "fvRsBd" [tenant, app, network]).map .create ++
          (create_container_dns moChainFuel "fvRsDomAtt"
            [tenant, app, network, phys_dn]).map .create)),
       some e) := by
  unfold epg_body
  rw [runPosts_all_ok env (mo_create_dns "fvAEPg" [tenant, app, network]) [] h1]
  dsimp only
  rw [hbd]
  dsimp only
  rw [hname]
  dsimp only
  rw [runPosts_all_ok env (mo_create_dns "fvRsBd" [tenant, app, network]) _ h3]
  dsimp only
  rw [hdn]
  dsimp only
  rw [show mo_create_dns "fvRsDomAtt" [tenant, app, network, phys_dn] =
      create_container_dns moChainFuel "fvRsDomAtt"
        [tenant, app, network, phys_dn] ++
      [mo_dn "fvRsDomAtt" [tenant, app, network, phys_dn]] from rfl]
  rw [runPosts_fail_last env _ e hfail _ _ h4]
  simp [List.append_assoc]

/-- C7 (amended): on a remote rejection partway through the EPG creation
sequence — after the EPG itself and the bridge-domain association were
created — the handler performs exactly one delete, of the root EPG object
just created (not one delete per created object in reverse order), does
not write the local record, and re-raises the original exception
unchanged. -/
theorem C7_rollback_root_delete :
    ∀ (env : ApicEnv) (db : List (String × String))
      (tenant app network bd_name phys_dn code text : String)
      (battrs pattrs : List (String × String)),
      List.lookup network db = none →
      (∀ d ∈ mo_create_dns "fvAEPg" [tenant, app, network],
        env.postFails d = none) →
      env.getResult (mo_dn "fvBD" [tenant, network]) = some battrs →
      List.lookup "name" battrs = some bd_name →
      List.lookup "dn" pattrs = some phys_dn →
      (∀ d ∈ mo_create_dns "fvRsBd" [tenant, app, network],
        env.postFails d = none) →
      (∀ d ∈ create_container_dns moChainFuel "fvRsDomAtt"
          [tenant, app, network, phys_dn], env.postFails d = none) →
      env.postFails (mo_dn "fvRsDomAtt" [tenant, app, network, phys_dn]) =
        some (.apicNotOk code text) →
      (ensure_epg_created_for_network env db tenant app network
          (some pattrs)).1 = .error (.apicNotOk code text) ∧
      (ensure_epg_created_for_network env db tenant app network
          (some pattrs)).2.1 = db ∧
      delsOf (ensure_epg_created_for_network env db tenant app network
          (some pattrs)).2.2 = [mo_dn "fvAEPg" [tenant, app, network]] := by
  intro env db tenant app network bd_name phys_dn code text battrs pattrs
    h0 h1 hbd hname hdn h3 h4 hfail
  have hbody := epg_body_fail_domatt env tenant app network bd_name phys_dn
    battrs pattrs (.apicNotOk code text) h1 hbd hname hdn h3 h4 hfail
  have hrun : ensure_epg_created_for_network env db tenant app network
      (some pattrs) =
      (.error (.apicNotOk code text), db,
       ((mo_create_dns "fvAEPg" [tenant, app, network]).map .create ++
         ([.get (mo_dn "fvBD" [tenant, network])] ++
          ((mo_create_dns "fvRsBd" [tenant, app, network]).map .create ++
           (create_container_dns moChainFuel "fvRsDomAtt"
             [tenant, app, network, phys_dn]).map .create))) ++
        [.del (mo_dn "fvAEPg" [tenant, app, network])]) := by
    unfold ensure_epg_created_for_network
    rw [h0]
    dsimp only
    rw [hbody]
    dsimp only [isCaughtExc]
    rw [if_pos rfl]
  rw [hrun]
  refine ⟨rfl, rfl, ?_⟩
  simp only [delsOf_append, delsOf_map_create]
  simp [delsOf]

/-- C7 counterexample: with the `fvRsDomAtt` POST rejected after the EPG
and its bridge-domain association were successfully created, the rollback
issues a single delete of the EPG only — the created `fvRsBd` object is
never deleted, contradicting deletion of the created objects in reverse
order — while the original error is re-raised unchanged. -/
theorem C7_counterexample :
    (ensure_epg_created_for_network
        ⟨fun d => if d == mo_dn "fvRsDomAtt"
              ["tenantA", "openstack", "net-42", "uni/phys-openstack"]
            then some (.apicNotOk "400" "boom") else none,
         fun d => if d == mo_dn "fvBD" ["tenantA", "net-42"]
            then some [("name", "net-42")] else none⟩
        [] "tenantA" "openstack" "net-42"
        (some [("dn", "uni/phys-openstack")])).1 =
      .error (.apicNotOk "400" "boom") ∧
    ApicEvent.create (mo_dn "fvRsBd" ["tenantA", "openstack", "net-42"]) ∈
      (ensure_epg_created_for_network
        ⟨fun d => if d == mo_dn "fvRsDomAtt"
              ["tenantA", "openstack", "net-42", "uni/phys-openstack"]
            then some (.apicNotOk "400" "boom") else none,
         fun d => if d == mo_dn "fvBD" ["tenantA", "net-42"]
            then some [("name", "net-42")] else none⟩
        [] "tenantA" "openstack" "net-42"
        (some [("dn", "uni/phys-openstack")])).2.2 ∧
    delsOf (ensure_epg_created_for_network
        ⟨fun d => if d == mo_dn "fvRsDomAtt"
              ["tenantA", "openstack", "net-42", "uni/phys-openstack"]
            then some (.apicNotOk "400" "boom") else none,
         fun d => if d == mo_dn "fvBD" ["tenantA", "net-42"]
            then some [("name", "net-42")] else none⟩
        [] "tenantA" "openstack" "net-42"
        (some [("dn", "uni/phys-openstack")])).2.2 =
      [mo_dn "fvAEPg" ["tenantA", "openstack", "net-42"]] ∧
    ApicEvent.del (mo_dn "fvRsBd" ["tenantA", "openstack", "net-42"]) ∉
      (ensure_epg_created_for_network
        ⟨fun d => if d == mo_dn "fvRsDomAtt"
              ["tenantA", "openstack", "net-42", "uni/phys-openstack"]
            then some (.apicNotOk "400" "boom") else none,
         fun d => if d == mo_dn "fvBD" ["tenantA", "net-42"]
            then some [("name", "net-42")] else none⟩
        [] "tenantA" "openstack" "net-42"
        (some [("dn", "uni/phys-openstack")])).2.2 := by
  decide

/-- Witness for the amended C7 at the same concrete failing input. -/
theorem C7_rollback_root_delete_witness :
    delsOf (ensure_epg_created_for_network
        ⟨fun d => if d == mo_dn "fvRsDomAtt"
              ["tenantA", "openstack", "net-42", "uni/phys-openstack"]
            then some (.apicNotOk "400" "boom") else none,
         fun d => if d == mo_dn "fvBD" ["tenantA", "net-42"]
            then some [("name", "net-42")] else none⟩
        [] "tenantA" "openstack" "net-42"
        (some [("dn", "uni/phys-openstack")])).2.2 =
      [mo_dn "fvAEPg" ["tenantA", "openstack", "net-42"]] :=
  (C7_rollback_root_delete
    ⟨fun d => if d == mo_dn "fvRsDomAtt"
          ["tenantA", "openstack", "net-42", "uni/phys-openstack"]
        then some (.apicNotOk "400" "boom") else none,
     fun d => if d == mo_dn "fvBD" ["tenantA", "net-42"]
        then some [("name", "net-42")] else none⟩
    [] "tenantA" "openstack" "net-42" "net-42" "uni/phys-openstack"
    "400" "boom" [("name", "net-42")] [("dn", "uni/phys-openstack")]
    rfl (by decide) (by simp) rfl rfl (by decide) (by decide) (by decide)).2.2
